import Mathlib

/-!
Verification of the `fdfdpy` 2D finite-difference frequency-domain solver
(`fdfdpy/simulation.py`) against its natural-language specification.

The embedding follows the source file `simulation.py`.  The modules it imports
(`fdfdpy.linalg`, `fdfdpy.derivatives`, `fdfdpy.nonlinear_solvers`,
`fdfdpy.nonlinearity`, `fdfdpy.constants`) are not part of the sources under
verification; they are external collaborators and are modelled from the
specification, either as concrete definitions (where the spec pins down their
behaviour, e.g. `grid_average`) or as abstract function parameters collected in
the `Externals` structure (e.g. `construct_A`, `solver_direct`).

Numpy complex scalars are modelled by Gaussian rationals `Cx` (pairs of
rationals with complex multiplication), a computable field.  2D numpy arrays
are modelled as total functions `ℕ → ℕ → Cx` (shapes are tracked separately by
`Nx`/`Ny` on the simulation state, and row-major `reshape` becomes
`flatten`/`unflatten`).  Sparse matrices are modelled by the linear operators
they induce, `Vec → Vec`; `spdiags` builds the pointwise-multiplication
operator and matrix addition is pointwise.
-/

namespace Fdfdpy

/-- Computable complex scalars: Gaussian rationals, standing in for the numpy
complex values used throughout `simulation.py`. -/
structure Cx where
  re : ℚ
  im : ℚ
deriving DecidableEq

namespace Cx

theorem ext_cx : ∀ {a b : Cx}, a.re = b.re → a.im = b.im → a = b := by
  intro a b h1 h2
  cases a
  cases b
  cases h1
  cases h2
  rfl

instance : Zero Cx := ⟨⟨0, 0⟩⟩

instance : One Cx := ⟨⟨1, 0⟩⟩

instance : Add Cx := ⟨fun a b => ⟨a.re + b.re, a.im + b.im⟩⟩

instance : Neg Cx := ⟨fun a => ⟨-a.re, -a.im⟩⟩

instance : Mul Cx := ⟨fun a b => ⟨a.re * b.re - a.im * b.im, a.re * b.im + a.im * b.re⟩⟩

/-- Squared modulus, used to define the inverse. -/
def normSq (a : Cx) : ℚ := a.re * a.re + a.im * a.im

instance : Inv Cx := ⟨fun a => ⟨a.re / a.normSq, -a.im / a.normSq⟩⟩

/-- The imaginary unit (`1j` in Python). -/
def I : Cx := ⟨0, 1⟩

/-- Embedding of a real (rational) scalar as a complex scalar. -/
def ofQ (q : ℚ) : Cx := ⟨q, 0⟩

/-- Complex conjugation (`np.conj`). -/
def conj (a : Cx) : Cx := ⟨a.re, -a.im⟩

@[simp] theorem zero_re : (0 : Cx).re = 0 := rfl

@[simp] theorem zero_im : (0 : Cx).im = 0 := rfl

@[simp] theorem one_re : (1 : Cx).re = 1 := rfl

@[simp] theorem one_im : (1 : Cx).im = 0 := rfl

@[simp] theorem add_re (a b : Cx) : (a + b).re = a.re + b.re := rfl

@[simp] theorem add_im (a b : Cx) : (a + b).im = a.im + b.im := rfl

@[simp] theorem neg_re (a : Cx) : (-a).re = -a.re := rfl

@[simp] theorem neg_im (a : Cx) : (-a).im = -a.im := rfl

@[simp] theorem mul_re (a b : Cx) : (a * b).re = a.re * b.re - a.im * b.im := rfl

@[simp] theorem mul_im (a b : Cx) : (a * b).im = a.re * b.im + a.im * b.re := rfl

@[simp] theorem inv_re (a : Cx) : (a⁻¹).re = a.re / a.normSq := rfl

@[simp] theorem inv_im (a : Cx) : (a⁻¹).im = -a.im / a.normSq := rfl

theorem normSq_ne_zero {a : Cx} (h : a ≠ 0) : a.normSq ≠ 0 := by
  intro hn
  apply h
  have hre : a.re = 0 ∧ a.im = 0 := by
    constructor <;> nlinarith [sq_nonneg a.re, sq_nonneg a.im, normSq.eq_1 a]
  exact ext_cx hre.1 hre.2

instance instField : Field Cx :=
  Field.ofMinimalAxioms Cx
    (fun a b c => by apply ext_cx <;> simp <;> ring)
    (fun a => by apply ext_cx <;> simp)
    (fun a => by apply ext_cx <;> simp)
    (fun a b c => by apply ext_cx <;> simp <;> ring)
    (fun a b => by apply ext_cx <;> simp <;> ring)
    (fun a => by apply ext_cx <;> simp)
    (fun a ha => by
      have hn : a.normSq ≠ 0 := normSq_ne_zero ha
      simp [normSq] at hn
      apply ext_cx <;> simp [normSq] <;> field_simp <;> ring)
    (by apply ext_cx <;> simp [normSq])
    (fun a b c => by apply ext_cx <;> simp <;> ring)
    ⟨0, 1, by decide⟩

@[simp] theorem ofQ_mul (p q : ℚ) : ofQ (p * q) = ofQ p * ofQ q := by
  apply ext_cx <;> simp [ofQ]

@[simp] theorem two_re : (2 : Cx).re = 2 := by
  rw [show (2 : Cx) = 1 + 1 from one_add_one_eq_two.symm]
  simp only [Cx.add_re, Cx.one_re]
  norm_num

@[simp] theorem two_im : (2 : Cx).im = 0 := by
  rw [show (2 : Cx) = 1 + 1 from one_add_one_eq_two.symm]
  simp only [Cx.add_im, Cx.one_im]
  norm_num

theorem one_add_one_div_two : ((1 : Cx) + 1) / 2 = 1 := by
  rw [div_eq_mul_inv]
  apply ext_cx <;> simp [normSq] <;> norm_num

end Cx

/-- A flat (1D) numpy array: `src.reshape((-1,))` etc.  Total function model. -/
abbrev Vec := ℕ → Cx

/-- A 2D numpy array of complex values; shapes are tracked separately. -/
abbrev Arr2 := ℕ → ℕ → Cx

/-- A sparse matrix, modelled by the linear operator it induces on flat
vectors; `.dot` is application/composition. -/
abbrev Mat := Vec → Vec

/-- Pointwise sum of two sparse matrices (scipy `A + Anl`). -/
def matAdd (A B : Mat) : Mat := fun v k => A v k + B v k

/-- Model of `scipy.sparse.spdiags(d, 0, M, M)`: the operator multiplying pointwise
by the diagonal vector `d`. -/
def spdiags (d : Vec) : Mat := fun v k => d k * v k

/-- Scalar multiple of a flat array (numpy scalar broadcasting). -/
def scaleVec (c : Cx) (v : Vec) : Vec := fun k => c * v k

/-- Scalar multiple of a 2D array (numpy scalar broadcasting). -/
def scaleArr (c : Cx) (a : Arr2) : Arr2 := fun i j => c * a i j

/-- Pointwise sum of two 2D arrays. -/
def addArr (a b : Arr2) : Arr2 := fun i j => a i j + b i j

/-- Model of `np.zeros(shape)`. -/
def zerosArr : Arr2 := fun _ _ => 0

/-- Model of `np.ones(shape)`. -/
def onesArr : Arr2 := fun _ _ => 1

/-- Row-major `a.reshape((-1,))` of an `Nx × Ny` array. -/
def flatten (Ny : ℕ) (a : Arr2) : Vec := fun k => a (k / Ny) (k % Ny)

/-- Row-major `v.reshape((Nx, Ny))` of a flat vector. -/
def unflatten (Ny : ℕ) (v : Vec) : Arr2 := fun i j => v (i * Ny + j)

/-- Modelled from the spec: `grid_average` from `fdfdpy.linalg` (module not
under the sources being verified).  Per §4.1 of the spec, each cell becomes
the arithmetic mean of itself and its forward neighbor along the tagged axis;
the overhang at the far edge is for the caller to trim. -/
def grid_average (a : Arr2) (w : String) : Arr2 :=
  if w = "x" then fun i j => (a i j + a (i + 1) j) / 2
  else fun i j => (a i j + a i (j + 1)) / 2

/-- Modelled from the spec: `EPSILON_0` from `fdfdpy.constants` (module not
under the sources being verified); the vacuum permittivity, a fixed positive
real constant whose exact value none of the claims depend on. -/
def EPSILON_0 : ℚ := 8.85418782e-12

/-- Modelled from the spec: `MU_0` from `fdfdpy.constants` (module not under
the sources being verified); the vacuum permeability, a fixed positive real
constant whose exact value none of the claims depend on. -/
def MU_0 : ℚ := 1.25663706e-6

/-- Modelled from the spec: `DEFAULT_LENGTH_SCALE` from `fdfdpy.constants`
(module not under the sources being verified): the default unit-normalization
factor `L0`. -/
def DEFAULT_LENGTH_SCALE : ℚ := 1e-6

/-- The Python exceptions `simulation.py` can raise, by class. -/
inductive PyError where
  | assertionError : String → PyError
  | valueError : String → PyError
  | nameError : String → PyError
  | attributeError : String → PyError
  | typeError : String → PyError
deriving DecidableEq

/-- The six field-component names keying the `fields` dictionary. -/
inductive FieldName where
  | Ex | Ey | Ez | Hx | Hy | Hz
deriving DecidableEq

/-- Modelled from the spec: a registered nonlinear material term
(`fdfdpy.nonlinearity.Nonlinearity`, module not under the sources being
verified).  Per §4.4 of the spec it contributes, pointwise in the supplied
field and base permittivity, a permittivity perturbation and its two partial
derivatives; the three evaluation maps are kept abstract. -/
structure Nonlinearity where
  eps_nl : Arr2 → Arr2 → Arr2
  dnl_de : Arr2 → Arr2 → Arr2
  dnl_deps : Arr2 → Arr2 → Arr2

/-- The four staggered first-difference operators exposed by the external
derivative/PML provider, in the order `unpack_derivs` yields them. -/
structure Derivs where
  Dyb : Mat
  Dxb : Mat
  Dxf : Mat
  Dyf : Mat

/-- Modelled from the spec: `unpack_derivs` from `fdfdpy.derivatives` (module
not under the sources being verified) exposes the stored derivative operators
as the tuple `(Dyb, Dxb, Dxf, Dyf)` (spec §2, OperatorAssembler). -/
def unpack_derivs (d : Derivs) : Mat × Mat × Mat × Mat := (d.Dyb, d.Dxb, d.Dxf, d.Dyf)

/-- The state of a `Simulation` object: the attributes `__init__`, the
`eps_r` setter and `compute_nl` install.  `fields` maps each of the six field
names to `None` (unset) or a computed array.  `Anl` is `none` until
`compute_nl` first assigns the attribute (it is absent after `__init__`,
claim C8).  The `modes` list only feeds the out-of-scope mode-source
machinery and is omitted. -/
structure Simulation where
  L0 : ℚ
  omega : ℚ
  dl : ℚ
  NPML : List ℤ
  pol : String
  Nx : ℕ
  Ny : ℕ
  mu_r : Arr2
  src : Arr2
  xrange : ℚ × ℚ
  yrange : ℚ × ℚ
  eps_r : Arr2
  A : Mat
  derivs : Derivs
  fields : FieldName → Option Arr2
  nonlinearity : List Nonlinearity
  eps_nl : Arr2
  dnl_de : Arr2
  dnl_deps : Arr2
  Anl : Option Mat

/-- Modelled from the spec: the external numerical collaborators consumed by
`simulation.py` (spec §6).  `construct_A` is the operator assembler from
`fdfdpy.linalg` returning the system matrix and the derivative operators;
`solver_direct` is the direct complex sparse solver; `born_solve` and
`newton_solve` are the nonlinear iteration drivers from
`fdfdpy.nonlinear_solvers`, returning three field arrays and the convergence
record.  None of these modules are under the sources being verified, so they
are kept abstract. -/
structure Externals where
  construct_A : ℚ → ℚ × ℚ → ℚ × ℚ → Arr2 → List ℤ → String → ℚ → Mat × Derivs
  solver_direct : Mat → Vec → Vec
  born_solve : Simulation → Option Arr2 → ℚ → ℕ → Bool → Arr2 × Arr2 × Arr2 × List ℚ
  newton_solve : Simulation → Option Arr2 → ℚ → ℕ → Bool → Arr2 × Arr2 × Arr2 × List ℚ

/-- Update one entry of the `fields` dictionary. -/
def setField (fs : FieldName → Option Arr2) (f : FieldName) (a : Arr2) :
    FieldName → Option Arr2 :=
  fun g => if g = f then some a else fs g

/-- Embedding of `Simulation._check_inputs` (`simulation.py` lines 245-252): the four
`assert` statements, in source order. -/
def check_inputs (L0 : ℚ) (NPML : List ℤ) (pol : String) : Except PyError Unit :=
  if ¬ 0 < L0 then .error (.assertionError "L0 must be a positive number")
  else if ¬ NPML.length = 2 then
    .error (.assertionError "NPML must be a list of length 2")
  else if ¬ (0 ≤ NPML.getD 0 0 ∧ 0 ≤ NPML.getD 1 0) then
    .error (.assertionError "both elements of NPML must be >= 0")
  else if ¬ (pol = "Ez" ∨ pol = "Hz") then
    .error (.assertionError "pol must be one of Ez or Hz")
  else .ok ()

/-- Embedding of the `eps_r` property setter (`simulation.py` lines 79-88): store the new
permittivity, reassemble `A` and the derivative operators from it via the
external `construct_A`, and reset all six `fields` entries to `None`. -/
def Simulation.set_eps_r (ext : Externals) (s : Simulation) (new_eps : Arr2) : Simulation :=
  let Ad := ext.construct_A s.omega s.xrange s.yrange new_eps s.NPML s.pol s.L0
  { s with eps_r := new_eps, A := Ad.1, derivs := Ad.2, fields := fun _ => none }

/-- Embedding of `Simulation.__init__` (`simulation.py` lines 17-43): record the scalar
parameters, run `_check_inputs`, install the grid metadata, all-ones `mu_r`,
zero `src`, then assign `self.eps_r` (triggering the setter, which assembles
`A`/`derivs` and resets `fields`), then the empty nonlinearity list and zero
nonlinear arrays.  The attribute `Anl` is never created (`none`).  numpy
carries the array shape, which the embedding takes as explicit `Nx`/`Ny`
arguments; the placeholder `A`/`derivs` of the intermediate record are
overwritten by the setter before the state is returned. -/
def Simulation.init (ext : Externals) (omega : ℚ) (eps_r : Arr2) (Nx Ny : ℕ)
    (dl : ℚ) (NPML : List ℤ) (pol : String) (L0 : ℚ) : Except PyError Simulation :=
  match check_inputs L0 NPML pol with
  | .error e => .error e
  | .ok _ =>
    let base : Simulation :=
      { L0 := L0, omega := omega, dl := dl, NPML := NPML, pol := pol,
        Nx := Nx, Ny := Ny, mu_r := onesArr, src := zerosArr,
        xrange := (0, (Nx : ℚ) * dl), yrange := (0, (Ny : ℚ) * dl),
        eps_r := zerosArr, A := fun v => v,
        derivs := ⟨fun v => v, fun v => v, fun v => v, fun v => v⟩,
        fields := fun _ => none,
        nonlinearity := [], eps_nl := zerosArr, dnl_de := zerosArr,
        dnl_deps := zerosArr, Anl := none }
    .ok (Simulation.set_eps_r ext base eps_r)

/-- Embedding of `Simulation.compute_nl` (`simulation.py` lines 57-68): re-zero the three
nonlinear arrays, accumulate the contributions of every registered term, then
assign `Anl = spdiags(omega**2 * EPSILON_0 * L0 * eps_nl.reshape(-1), 0,
Nbig, Nbig)`. -/
def Simulation.compute_nl (s : Simulation) (e : Arr2) : Simulation :=
  let acc := s.nonlinearity.foldl
    (fun acc nli =>
      (addArr acc.1 (nli.eps_nl e s.eps_r),
       addArr acc.2.1 (nli.dnl_de e s.eps_r),
       addArr acc.2.2 (nli.dnl_deps e s.eps_r)))
    (zerosArr, zerosArr, zerosArr)
  let Anl : Mat :=
    spdiags (fun k => Cx.ofQ (s.omega ^ 2 * EPSILON_0 * s.L0) * flatten s.Ny acc.1 k)
  { s with eps_nl := acc.1, dnl_de := acc.2.1, dnl_deps := acc.2.2, Anl := some Anl }

/-- Embedding of `Simulation.solve_fields` (`simulation.py` lines 110-174): direct solve of
`A x = src * 1j * omega` (with `A + Anl` and `eps_r + eps_nl` when
`include_nl`; reading the absent `Anl` attribute raises `AttributeError`),
then recovery of the two companion components from `X` through the stored
backward difference operators, and update of the three relevant `fields`
entries.  Returns the field triple, in source order, with the updated state. -/
def Simulation.solve_fields (ext : Externals) (s : Simulation)
    (include_nl : Bool) (averaging : Bool) :
    Except PyError ((Arr2 × Arr2 × Arr2) × Simulation) :=
  let EPSILON_0_ : ℚ := EPSILON_0 * s.L0
  let MU_0_ : ℚ := MU_0 * s.L0
  let rhs : Vec := fun k => flatten s.Ny s.src k * Cx.I * Cx.ofQ s.omega
  let step : Except PyError (Arr2 × Vec) :=
    if include_nl = false then
      .ok (s.eps_r, ext.solver_direct s.A rhs)
    else
      match s.Anl with
      | none => .error (.attributeError "Simulation object has no attribute Anl")
      | some anl => .ok (addArr s.eps_r s.eps_nl, ext.solver_direct (matAdd s.A anl) rhs)
  match step with
  | .error e => .error e
  | .ok (eps_tot, X) =>
    let Dyb := (unpack_derivs s.derivs).1
    let Dxb := (unpack_derivs s.derivs).2.1
    if s.pol = "Hz" then
      let vector_eps_x : Vec :=
        if averaging then flatten s.Ny (grid_average (scaleArr (Cx.ofQ EPSILON_0_) eps_tot) "x")
        else flatten s.Ny (scaleArr (Cx.ofQ EPSILON_0_) eps_tot)
      let vector_eps_y : Vec :=
        if averaging then flatten s.Ny (grid_average (scaleArr (Cx.ofQ EPSILON_0_) eps_tot) "y")
        else flatten s.Ny (scaleArr (Cx.ofQ EPSILON_0_) eps_tot)
      let T_eps_x_inv : Mat := spdiags fun k => (vector_eps_x k)⁻¹
      let T_eps_y_inv : Mat := spdiags fun k => (vector_eps_y k)⁻¹
      let ex : Vec := scaleVec (1 / Cx.I / Cx.ofQ s.omega) (T_eps_y_inv (Dyb X))
      let ey : Vec := scaleVec (-1 / Cx.I / Cx.ofQ s.omega) (T_eps_x_inv (Dxb X))
      let Ex := unflatten s.Ny ex
      let Ey := unflatten s.Ny ey
      let Hz := unflatten s.Ny X
      let fields' := setField (setField (setField s.fields .Ex Ex) .Ey Ey) .Hz Hz
      .ok ((Ex, Ey, Hz), { s with fields := fields' })
    else if s.pol = "Ez" then
      let hx : Vec := scaleVec (-1 / Cx.I / Cx.ofQ s.omega / Cx.ofQ MU_0_) (Dyb X)
      let hy : Vec := scaleVec (1 / Cx.I / Cx.ofQ s.omega / Cx.ofQ MU_0_) (Dxb X)
      let Hx := unflatten s.Ny hx
      let Hy := unflatten s.Ny hy
      let Ez := unflatten s.Ny X
      let fields' := setField (setField (setField s.fields .Hx Hx) .Hy Hy) .Ez Ez
      .ok ((Hx, Hy, Ez), { s with fields := fields' })
    else
      .error (.valueError "Invalid polarization")

/-- Embedding of `Simulation.solve_fields_nl` (`simulation.py` lines 176-243): dispatch on
polarization and `solver_nl` tag.  Under `Ez` the recognized tags are `born`,
`newton` and `LM`; the `LM` branch calls the name `LM_solve`, which is neither
defined nor imported, so it raises `NameError` at that point.  Under `Hz` the
recognized tags are `born` and `newton` only.  An unrecognized tag raises the
bare `AssertionError` of the `else` branch.  On success the three relevant
`fields` entries are updated. -/
def Simulation.solve_fields_nl (ext : Externals) (s : Simulation)
    (Estart : Option Arr2) (solver_nl : String) (conv_threshold : ℚ)
    (max_num_iter : ℕ) (averaging : Bool) :
    Except PyError ((Arr2 × Arr2 × Arr2 × List ℚ) × Simulation) :=
  if s.pol = "Ez" then
    if solver_nl = "born" then
      let r := ext.born_solve s Estart conv_threshold max_num_iter averaging
      let fields' := setField (setField (setField s.fields .Hx r.1) .Hy r.2.1) .Ez r.2.2.1
      .ok (r, { s with fields := fields' })
    else if solver_nl = "newton" then
      let r := ext.newton_solve s Estart conv_threshold max_num_iter averaging
      let fields' := setField (setField (setField s.fields .Hx r.1) .Hy r.2.1) .Ez r.2.2.1
      .ok (r, { s with fields := fields' })
    else if solver_nl = "LM" then
      .error (.nameError "name LM_solve is not defined")
    else
      .error (.assertionError "solver must be one of born, newton, LM")
  else if s.pol = "Hz" then
    if solver_nl = "born" then
      let r := ext.born_solve s Estart conv_threshold max_num_iter averaging
      let fields' := setField (setField (setField s.fields .Ex r.1) .Ey r.2.1) .Hz r.2.2.1
      .ok (r, { s with fields := fields' })
    else if solver_nl = "newton" then
      let r := ext.newton_solve s Estart conv_threshold max_num_iter averaging
      let fields' := setField (setField (setField s.fields .Ex r.1) .Ey r.2.1) .Hz r.2.2.1
      .ok (r, { s with fields := fields' })
    else
      .error (.assertionError "solver must be one of born, newton")
  else
    .error (.valueError "Invalid polarization")

/-- Python `int()` applied to a real value: truncation toward zero. -/
def pyInt (q : ℚ) : ℤ := if 0 ≤ q then ⌊q⌋ else -⌊-q⌋

/-- The probed index bounds of `Simulation.flux_probe` (`simulation.py`
lines 260-267): along the normal axis the pair `[c, c+1]`; along the
tangential axis `[int(c - width/2), int(c + width/2)]`; any other
`direction_normal` raises `ValueError`. -/
def flux_inds (direction_normal : String) (center : ℤ × ℤ) (width : ℚ) :
    Except PyError ((ℤ × ℤ) × (ℤ × ℤ)) :=
  if direction_normal = "x" then
    .ok ((center.1, center.1 + 1),
         (pyInt ((center.2 : ℚ) - width / 2), pyInt ((center.2 : ℚ) + width / 2)))
  else if direction_normal = "y" then
    .ok ((pyInt ((center.1 : ℚ) - width / 2), pyInt ((center.1 : ℚ) + width / 2)),
         (center.2, center.2 + 1))
  else
    .error (.valueError "The value of direction_normal is neither x nor y!")

/-- Embedding of `Simulation.flux_probe` (`simulation.py` lines 256-291): compute the index
bounds, slice the relevant populated fields (subscripting an unpopulated
`None` entry raises `TypeError`), grid-average the primary field, trim the
averaging overhang, and sum the time-averaged Poynting component times `dl`.
Slices become index-shifted total arrays with the slice extents bounding the
final sums (which also realizes the `[:-1,:-1]` trim); indices are clamped to
`ℕ` (Python negative-index wrapping is out of scope of the claims).  A
polarization outside `Ez`/`Hz` falls through both branches and returns
`None`, as in the source. -/
def Simulation.flux_probe (s : Simulation) (direction_normal : String)
    (center : ℤ × ℤ) (width : ℚ) : Except PyError (Option ℚ) :=
  match flux_inds direction_normal center width with
  | .error e => .error e
  | .ok ((x0, x1), (y0, y1)) =>
    if s.pol = "Ez" then
      match s.fields .Ez with
      | none => .error (.typeError "NoneType object is not subscriptable")
      | some ez =>
        let sliceEz : Arr2 := fun i j => ez ((x0 + i).toNat) ((y0 + j).toNat)
        let Ez_x := grid_average sliceEz "x"
        let Ez_y := grid_average sliceEz "y"
        match s.fields .Hy with
        | none => .error (.typeError "NoneType object is not subscriptable")
        | some hy =>
          let sliceHy : Arr2 := fun i j => hy ((x0 + i).toNat) ((y0 + j).toNat)
          if direction_normal = "x" then
            let Sx : ℕ → ℕ → ℚ := fun i j =>
              -(1 / 2) * (Ez_x i j * Cx.conj (sliceHy i j)).re
            .ok (some (s.dl * ∑ i ∈ Finset.range (x1 - x0).toNat,
              ∑ j ∈ Finset.range (y1 - y0).toNat, Sx i j))
          else
            let Sy : ℕ → ℕ → ℚ := fun i j =>
              (1 / 2) * (Ez_y i j * Cx.conj (sliceHy i j)).re
            .ok (some (s.dl * ∑ i ∈ Finset.range (x1 - x0).toNat,
              ∑ j ∈ Finset.range (y1 - y0).toNat, Sy i j))
    else if s.pol = "Hz" then
      match s.fields .Hz with
      | none => .error (.typeError "NoneType object is not subscriptable")
      | some hz =>
        let sliceHz : Arr2 := fun i j => hz ((x0 + i).toNat) ((y0 + j).toNat)
        let Hz_x := grid_average sliceHz "x"
        let Hz_y := grid_average sliceHz "y"
        if direction_normal = "x" then
          match s.fields .Ey with
          | none => .error (.typeError "NoneType object is not subscriptable")
          | some eyf =>
            let sliceEy : Arr2 := fun i j => eyf ((x0 + i).toNat) ((y0 + j).toNat)
            let Sx : ℕ → ℕ → ℚ := fun i j =>
              (1 / 2) * (sliceEy i j * Cx.conj (Hz_x i j)).re
            .ok (some (s.dl * ∑ i ∈ Finset.range (x1 - x0).toNat,
              ∑ j ∈ Finset.range (y1 - y0).toNat, Sx i j))
        else
          match s.fields .Ex with
          | none => .error (.typeError "NoneType object is not subscriptable")
          | some exf =>
            let sliceEx : Arr2 := fun i j => exf ((x0 + i).toNat) ((y0 + j).toNat)
            let Sy : ℕ → ℕ → ℚ := fun i j =>
              -(1 / 2) * (sliceEx i j * Cx.conj (Hz_y i j)).re
            .ok (some (s.dl * ∑ i ∈ Finset.range (x1 - x0).toNat,
              ∑ j ∈ Finset.range (y1 - y0).toNat, Sy i j))
    else
      .ok none

/-- Does an `Except` result carry an `AssertionError`? -/
def isAssertionError {α : Type} : Except PyError α → Bool
  | .error (.assertionError _) => true
  | _ => false

/-- The field triple of a successful `solve_fields` result. -/
def okFields : Except PyError ((Arr2 × Arr2 × Arr2) × Simulation) →
    Option (Arr2 × Arr2 × Arr2)
  | .ok (t, _) => some t
  | .error _ => none

/-- The three `fields` entries a solve with the given polarization populates
(spec §3 invariant): `Ex, Ey, Hz` for `Hz` and `Hx, Hy, Ez` for `Ez`. -/
def polFields (pol : String) : List FieldName :=
  if pol = "Hz" then [.Ex, .Ey, .Hz]
  else if pol = "Ez" then [.Hx, .Hy, .Ez]
  else []

/-- A concrete simulation state used to instantiate theorems on explicit
inputs: `Hz` polarization, all `fields` unset, no `Anl` attribute. -/
def dummySim : Simulation :=
  { L0 := 1, omega := 1, dl := 1, NPML := [0, 0], pol := "Hz", Nx := 2, Ny := 2,
    mu_r := onesArr, src := zerosArr, xrange := (0, 2), yrange := (0, 2),
    eps_r := onesArr, A := fun v => v,
    derivs := ⟨fun v => v, fun v => v, fun v => v, fun v => v⟩,
    fields := fun _ => none, nonlinearity := [], eps_nl := zerosArr,
    dnl_de := zerosArr, dnl_deps := zerosArr, Anl := none }

/-- The `dummySim` state with `Ez` polarization. -/
def dummySimEz : Simulation := { dummySim with pol := "Ez" }

/-- A concrete instantiation of the external collaborators. -/
def wExt : Externals :=
  { construct_A := fun _ _ _ _ _ _ _ =>
      (fun v => v, ⟨fun v => v, fun v => v, fun v => v, fun v => v⟩),
    solver_direct := fun _ v => v,
    born_solve := fun _ _ _ _ _ => (zerosArr, zerosArr, zerosArr, []),
    newton_solve := fun _ _ _ _ _ => (zerosArr, zerosArr, zerosArr, []) }

/-- A second concrete instantiation of the external collaborators, differing
from `wExt` in every component. -/
def wExt2 : Externals :=
  { construct_A := fun _ _ _ _ _ _ _ =>
      (fun _ _ => 1, ⟨fun _ _ => 1, fun _ _ => 1, fun _ _ => 1, fun _ _ => 1⟩),
    solver_direct := fun _ _ _ => 1,
    born_solve := fun _ _ _ _ _ => (onesArr, onesArr, onesArr, [1]),
    newton_solve := fun _ _ _ _ _ => (onesArr, onesArr, onesArr, [1]) }

/-- Claim C3 — Assigning the permittivity property runs the setter
eagerly: in the returned state `A` and the derivative operators are exactly
`construct_A` applied to the newly assigned permittivity (with the current
geometry/frequency parameters), every one of the six `fields` entries is
reset to unset, and nothing of the prior operator bundle or cached
fields survives: two states agreeing on the inputs of the setter yield identical
`A`, `derivs` and `fields` after the assignment, whatever their prior
operators and fields were. -/
theorem claim_C3 (ext : Externals) (s₁ s₂ : Simulation) (e : Arr2)
    (ho : s₁.omega = s₂.omega) (hx : s₁.xrange = s₂.xrange)
    (hy : s₁.yrange = s₂.yrange) (hn : s₁.NPML = s₂.NPML)
    (hp : s₁.pol = s₂.pol) (hl : s₁.L0 = s₂.L0) :
    (Simulation.set_eps_r ext s₁ e).eps_r = e ∧
    (Simulation.set_eps_r ext s₁ e).A =
      (ext.construct_A s₁.omega s₁.xrange s₁.yrange e s₁.NPML s₁.pol s₁.L0).1 ∧
    (Simulation.set_eps_r ext s₁ e).derivs =
      (ext.construct_A s₁.omega s₁.xrange s₁.yrange e s₁.NPML s₁.pol s₁.L0).2 ∧
    (∀ f, (Simulation.set_eps_r ext s₁ e).fields f = none) ∧
    (Simulation.set_eps_r ext s₁ e).A = (Simulation.set_eps_r ext s₂ e).A ∧
    (Simulation.set_eps_r ext s₁ e).derivs = (Simulation.set_eps_r ext s₂ e).derivs ∧
    (∀ f, (Simulation.set_eps_r ext s₁ e).fields f =
      (Simulation.set_eps_r ext s₂ e).fields f) := by
  simp [Simulation.set_eps_r, ho, hx, hy, hn, hp, hl]

/-- Witness for `claim_C3` on explicit inputs: a state with a stale operator
and stale cached fields is fully overwritten by the setter. -/
theorem claim_C3_witness :
    (Simulation.set_eps_r wExt dummySim onesArr).A =
      (Simulation.set_eps_r wExt
        { dummySim with A := fun _ _ => 1, fields := fun _ => some zerosArr }
        onesArr).A ∧
    (Simulation.set_eps_r wExt dummySim onesArr).fields FieldName.Ex = none := by
  have h := claim_C3 wExt dummySim
    { dummySim with A := fun _ _ => 1, fields := fun _ => some zerosArr }
    onesArr rfl rfl rfl rfl rfl rfl
  exact ⟨h.2.2.2.2.1, h.2.2.2.1 FieldName.Ex⟩

/-- Claim C4 — Constructing a `Simulation` with a polarization tag outside
`Ez`/`Hz`, or with a negative PML thickness in either axis, fails with an
`AssertionError` (the ConfigError class of the spec), and the failure is
independent of the external operator assembler: no matrix is assembled. -/
theorem claim_C4 (ext ext₂ : Externals) (omega : ℚ) (e : Arr2) (Nx Ny : ℕ)
    (dl : ℚ) (NPML : List ℤ) (pol : String) (L0 : ℚ)
    (h : ¬(pol = "Ez" ∨ pol = "Hz") ∨ ∃ n ∈ NPML, n < 0) :
    isAssertionError (Simulation.init ext omega e Nx Ny dl NPML pol L0) = true ∧
    Simulation.init ext omega e Nx Ny dl NPML pol L0 =
      Simulation.init ext₂ omega e Nx Ny dl NPML pol L0 := by
  have hc : ∃ m, check_inputs L0 NPML pol = .error (.assertionError m) := by
    unfold check_inputs
    split
    · exact ⟨_, rfl⟩
    split
    · exact ⟨_, rfl⟩
    split
    · exact ⟨_, rfl⟩
    split
    · exact ⟨_, rfl⟩
    rename_i h1 h2 h3 h4
    rw [not_not] at h2 h3 h4
    exfalso
    rcases h with h | ⟨n, hmem, hneg⟩
    · exact h h4
    · obtain ⟨a, b, rfl⟩ := List.length_eq_two.mp h2
      simp [List.getD] at h3
      simp only [List.mem_cons, List.not_mem_nil, or_false] at hmem
      rcases hmem with rfl | rfl <;> omega
  obtain ⟨m, hm⟩ := hc
  constructor
  · simp [Simulation.init, hm, isAssertionError]
  · simp [Simulation.init, hm]

/-- Witness for `claim_C4` on explicit inputs: the invalid polarization tag
`xx` fails with an `AssertionError` under either external assembler. -/
theorem claim_C4_witness :
    isAssertionError (Simulation.init wExt 1 onesArr 2 2 1 [0, 0] "xx" 1) = true ∧
    Simulation.init wExt 1 onesArr 2 2 1 [0, 0] "xx" 1 =
      Simulation.init wExt2 1 onesArr 2 2 1 [0, 0] "xx" 1 :=
  claim_C4 wExt wExt2 1 onesArr 2 2 1 [0, 0] "xx" 1 (Or.inl (by decide))

/-- Claim C5 — `solve_fields_nl` raises the `AssertionError` of its
unrecognized-tag branch exactly when `solver_nl` is not recognized for the
active polarization: under `Hz` the recognized tags are `born` and `newton`
only (so `LM` raises), under `Ez` they are `born`, `newton` and the
placeholder `LM` (which does not reach the `AssertionError` branch). -/
theorem claim_C5 (ext : Externals) (s : Simulation) (Estart : Option Arr2)
    (tag : String) (ct : ℚ) (mi : ℕ) (av : Bool) :
    (s.pol = "Hz" →
      (isAssertionError (Simulation.solve_fields_nl ext s Estart tag ct mi av) = true ↔
        ¬(tag = "born" ∨ tag = "newton"))) ∧
    (s.pol = "Ez" →
      (isAssertionError (Simulation.solve_fields_nl ext s Estart tag ct mi av) = true ↔
        ¬(tag = "born" ∨ tag = "newton" ∨ tag = "LM"))) := by
  constructor <;> intro hpol <;>
    by_cases hb : tag = "born" <;> by_cases hn : tag = "newton" <;>
    by_cases hl : tag = "LM" <;>
    simp [Simulation.solve_fields_nl, hpol, hb, hn, hl, isAssertionError]

/-- Witness for `claim_C5` on explicit inputs: under `Hz` the tag `LM`
raises the `AssertionError`, and under `Ez` it does not. -/
theorem claim_C5_witness :
    isAssertionError (Simulation.solve_fields_nl wExt dummySim none "LM" 0 50 true) = true ∧
    isAssertionError (Simulation.solve_fields_nl wExt dummySimEz none "LM" 0 50 true) = false := by
  constructor
  · exact ((claim_C5 wExt dummySim none "LM" 0 50 true).1 rfl).mpr (by decide)
  · have h := (claim_C5 wExt dummySimEz none "LM" 0 50 true).2 rfl
    have h2 : ¬ isAssertionError
        (Simulation.solve_fields_nl wExt dummySimEz none "LM" 0 50 true) = true := by
      rw [h]
      simp
    simpa using h2

/-- Claim C7 — With an empty list of registered nonlinearities,
`compute_nl` produces all-zero `eps_nl`, `dnl_de` and `dnl_deps` arrays and a
zero perturbation operator `Anl`, so the nonlinear path degenerates to the
linear case. -/
theorem claim_C7 (s : Simulation) (e : Arr2) (h : s.nonlinearity = []) :
    (s.compute_nl e).eps_nl = zerosArr ∧
    (s.compute_nl e).dnl_de = zerosArr ∧
    (s.compute_nl e).dnl_deps = zerosArr ∧
    (s.compute_nl e).Anl.isSome = true ∧
    ∀ v k, ((s.compute_nl e).Anl.getD (fun w => w)) v k = 0 := by
  refine ⟨?_, ?_, ?_, ?_, ?_⟩ <;>
    simp [Simulation.compute_nl, h, spdiags, flatten, zerosArr]

/-- Witness for `claim_C7` on explicit inputs. -/
theorem claim_C7_witness :
    (dummySim.compute_nl onesArr).eps_nl = zerosArr ∧
    (dummySim.compute_nl onesArr).Anl.isSome = true ∧
    ((dummySim.compute_nl onesArr).Anl.getD (fun w => w)) (fun _ => 1) 0 = 0 := by
  have h := claim_C7 dummySim onesArr rfl
  exact ⟨h.1, h.2.2.2.1, h.2.2.2.2 (fun _ => 1) 0⟩

/-- Claim C8 — `__init__` never creates the `Anl` attribute, so on a
freshly constructed simulation (no `compute_nl` call yet) `solve_fields` with
`include_nl=True` fails with an attribute-lookup error when its nonlinear
branch reads `self.Anl`. -/
theorem claim_C8 (ext : Externals) (omega : ℚ) (e : Arr2) (Nx Ny : ℕ)
    (dl : ℚ) (NPML : List ℤ) (pol : String) (L0 : ℚ) (s : Simulation)
    (h : Simulation.init ext omega e Nx Ny dl NPML pol L0 = .ok s) :
    s.Anl = none ∧
    ∀ (ext₂ : Externals) (av : Bool),
      Simulation.solve_fields ext₂ s true av =
        .error (.attributeError "Simulation object has no attribute Anl") := by
  have hs : s.Anl = none := by
    unfold Simulation.init at h
    rcases hc : check_inputs L0 NPML pol with e' | u <;> rw [hc] at h
    · exact absurd h (by simp)
    · simp only [Except.ok.injEq] at h
      rw [← h]
      simp [Simulation.set_eps_r]
  refine ⟨hs, fun ext₂ av => ?_⟩
  simp [Simulation.solve_fields, hs]

/-- A concrete simulation state produced by `Simulation.init` (all checks
pass; `Hz` polarization). -/
def wInitSim : Simulation :=
  match Simulation.init wExt 1 onesArr 2 2 1 [0, 0] "Hz" 1 with
  | .ok s => s
  | .error _ => dummySim

/-- Witness for `claim_C8` on explicit inputs. -/
theorem claim_C8_witness :
    wInitSim.Anl = none ∧
    Simulation.solve_fields wExt2 wInitSim true true =
      .error (.attributeError "Simulation object has no attribute Anl") := by
  have h := claim_C8 wExt 1 onesArr 2 2 1 [0, 0] "Hz" 1 wInitSim rfl
  exact ⟨h.1, h.2 wExt2 true⟩

/-- Claim C6 — On a freshly constructed simulation (no solve has populated
`fields`), `flux_probe` with a valid `direction_normal` fails instead of
returning a power value: subscripting the unset field entry raises the
`TypeError` on `None` that realizes what the spec calls StateError. -/
theorem claim_C6 (ext : Externals) (omega : ℚ) (e : Arr2) (Nx Ny : ℕ)
    (dl : ℚ) (NPML : List ℤ) (pol : String) (L0 : ℚ) (s : Simulation)
    (h : Simulation.init ext omega e Nx Ny dl NPML pol L0 = .ok s)
    (dn : String) (hdn : dn = "x" ∨ dn = "y") (c : ℤ × ℤ) (w : ℚ) :
    s.flux_probe dn c w = .error (.typeError "NoneType object is not subscriptable") := by
  unfold Simulation.init at h
  rcases hc : check_inputs L0 NPML pol with e' | u <;> rw [hc] at h
  · exact absurd h (by simp)
  · have hpol : pol = "Ez" ∨ pol = "Hz" := by
      unfold check_inputs at hc
      split_ifs at hc with h1 h2 h3 h4
      exact h4
    have hs : Simulation.set_eps_r ext
        { L0 := L0, omega := omega, dl := dl, NPML := NPML, pol := pol,
          Nx := Nx, Ny := Ny, mu_r := onesArr, src := zerosArr,
          xrange := (0, (Nx : ℚ) * dl), yrange := (0, (Ny : ℚ) * dl),
          eps_r := zerosArr, A := fun v => v,
          derivs := ⟨fun v => v, fun v => v, fun v => v, fun v => v⟩,
          fields := fun _ => none,
          nonlinearity := [], eps_nl := zerosArr, dnl_de := zerosArr,
          dnl_deps := zerosArr, Anl := none } e = s := by
      simpa using h
    have hfields : s.fields = fun _ => none := by
      rw [← hs]
      rfl
    have hspol : s.pol = pol := by
      rw [← hs]
      rfl
    rcases hdn with rfl | rfl <;> rcases hpol with hp | hp <;>
      simp [Simulation.flux_probe, flux_inds, hspol, hp, hfields]

/-- Witness for `claim_C6` on explicit inputs. -/
theorem claim_C6_witness :
    wInitSim.flux_probe "x" (1, 1) 0 =
      .error (.typeError "NoneType object is not subscriptable") :=
  claim_C6 wExt 1 onesArr 2 2 1 [0, 0] "Hz" 1 wInitSim rfl "x" (Or.inl rfl) (1, 1) 0

/-- Claim C9 — Under `Ez` polarization, `solve_fields_nl` with
`solver_nl = "LM"` never returns fields: the tag passes the recognized-tag
check (no `AssertionError`), but the branch resolves the undefined name
`LM_solve` and fails with a `NameError`. -/
theorem claim_C9 (ext : Externals) (s : Simulation) (Estart : Option Arr2)
    (ct : ℚ) (mi : ℕ) (av : Bool) (h : s.pol = "Ez") :
    Simulation.solve_fields_nl ext s Estart "LM" ct mi av =
      .error (.nameError "name LM_solve is not defined") := by
  simp [Simulation.solve_fields_nl, h]

/-- Witness for `claim_C9` on explicit inputs. -/
theorem claim_C9_witness :
    Simulation.solve_fields_nl wExt dummySimEz none "LM" 0 50 true =
      .error (.nameError "name LM_solve is not defined") :=
  claim_C9 wExt dummySimEz none 0 50 true rfl

/-- Helper for claim C10: Python `int()` is the identity on integer-valued
reals. -/
theorem pyInt_intCast (z : ℤ) : pyInt (z : ℚ) = z := by
  unfold pyInt
  split
  · exact Int.floor_intCast z
  · rw [show -(z : ℚ) = ((-z : ℤ) : ℚ) by push_cast; ring, Int.floor_intCast]
    omega

/-- Claim C10 — The tangential index bounds of the probed line are
`int(center - width/2)` and `int(center + width/2)` where `int()` truncates
toward zero: truncation agrees with `floor` on non-negative values and is an
odd function (unlike `floor`); consequently, for an integer-valued center
component and an even integer width `2m`, the probed slice runs from
`center - m` up to (excluding) `center + m`, spanning exactly `2m = width`
cells. -/
theorem claim_C10 :
    (∀ q : ℚ, 0 ≤ q → pyInt q = ⌊q⌋) ∧
    (∀ q : ℚ, pyInt (-q) = -(pyInt q)) ∧
    (∀ (c : ℤ × ℤ) (w : ℚ) (m : ℤ), w = ((2 * m : ℤ) : ℚ) →
      flux_inds "x" c w = .ok ((c.1, c.1 + 1), (c.2 - m, c.2 + m)) ∧
      flux_inds "y" c w = .ok ((c.1 - m, c.1 + m), (c.2, c.2 + 1)) ∧
      (c.2 + m) - (c.2 - m) = 2 * m) := by
  refine ⟨fun q hq => by unfold pyInt; rw [if_pos hq], fun q => ?_, ?_⟩
  · unfold pyInt
    split <;> split <;> rename_i h1 h2
    · have hq : q = 0 := le_antisymm (by linarith) h2
      subst hq
      simp
    · simp
    · simp
    · exfalso
      push_neg at h1 h2
      linarith
  · intro c w m hw
    have hminus : pyInt ((c.2 : ℚ) - w / 2) = c.2 - m := by
      rw [hw, show (c.2 : ℚ) - ((2 * m : ℤ) : ℚ) / 2 = ((c.2 - m : ℤ) : ℚ) by push_cast; ring,
        pyInt_intCast]
    have hplus : pyInt ((c.2 : ℚ) + w / 2) = c.2 + m := by
      rw [hw, show (c.2 : ℚ) + ((2 * m : ℤ) : ℚ) / 2 = ((c.2 + m : ℤ) : ℚ) by push_cast; ring,
        pyInt_intCast]
    have hminus1 : pyInt ((c.1 : ℚ) - w / 2) = c.1 - m := by
      rw [hw, show (c.1 : ℚ) - ((2 * m : ℤ) : ℚ) / 2 = ((c.1 - m : ℤ) : ℚ) by push_cast; ring,
        pyInt_intCast]
    have hplus1 : pyInt ((c.1 : ℚ) + w / 2) = c.1 + m := by
      rw [hw, show (c.1 : ℚ) + ((2 * m : ℤ) : ℚ) / 2 = ((c.1 + m : ℤ) : ℚ) by push_cast; ring,
        pyInt_intCast]
    refine ⟨?_, ?_, by ring⟩
    · simp [flux_inds, hminus, hplus]
    · simp [flux_inds, hminus1, hplus1]

/-- A successful `solve_fields` call has a valid polarization and updates
exactly the three polarization-specific `fields` entries. -/
theorem solve_fields_ok_form (ext : Externals) (s : Simulation) (inl av : Bool)
    (r : Arr2 × Arr2 × Arr2) (s' : Simulation)
    (h : Simulation.solve_fields ext s inl av = .ok (r, s')) :
    (s.pol = "Hz" ∧ ∃ a b c, s'.fields =
      setField (setField (setField s.fields .Ex a) .Ey b) .Hz c) ∨
    (s.pol = "Ez" ∧ ∃ a b c, s'.fields =
      setField (setField (setField s.fields .Hx a) .Hy b) .Ez c) := by
  cases inl with
  | false =>
    simp only [Simulation.solve_fields] at h
    norm_num at h
    split at h
    · rename_i hpol
      simp only [Except.ok.injEq, Prod.mk.injEq] at h
      exact Or.inl ⟨hpol, _, _, _, by rw [← h.2]⟩
    · split at h
      · rename_i hpol2
        simp only [Except.ok.injEq, Prod.mk.injEq] at h
        exact Or.inr ⟨hpol2, _, _, _, by rw [← h.2]⟩
      · exact absurd h (by simp)
  | true =>
    rcases hAnl : s.Anl with _ | anl
    · simp only [Simulation.solve_fields, hAnl, reduceIte] at h
      exact Except.noConfusion h
    · simp only [Simulation.solve_fields, hAnl, Bool.true_eq_false, if_false] at h
      split at h
      · rename_i hpol
        simp only [Except.ok.injEq, Prod.mk.injEq] at h
        exact Or.inl ⟨hpol, _, _, _, by rw [← h.2]⟩
      · split at h
        · rename_i hpol2
          simp only [Except.ok.injEq, Prod.mk.injEq] at h
          exact Or.inr ⟨hpol2, _, _, _, by rw [← h.2]⟩
        · exact absurd h (by simp)

/-- A successful `solve_fields_nl` call has a valid polarization and updates
exactly the three polarization-specific `fields` entries. -/
theorem solve_fields_nl_ok_form (ext : Externals) (s : Simulation)
    (Estart : Option Arr2) (tag : String) (ct : ℚ) (mi : ℕ) (av : Bool)
    (r : Arr2 × Arr2 × Arr2 × List ℚ) (s' : Simulation)
    (h : Simulation.solve_fields_nl ext s Estart tag ct mi av = .ok (r, s')) :
    (s.pol = "Hz" ∧ ∃ a b c, s'.fields =
      setField (setField (setField s.fields .Ex a) .Ey b) .Hz c) ∨
    (s.pol = "Ez" ∧ ∃ a b c, s'.fields =
      setField (setField (setField s.fields .Hx a) .Hy b) .Ez c) := by
  simp only [Simulation.solve_fields_nl] at h
  split at h
  · rename_i hpol
    split at h
    · simp only [Except.ok.injEq, Prod.mk.injEq] at h
      exact Or.inr ⟨hpol, _, _, _, by rw [← h.2]⟩
    · split at h
      · simp only [Except.ok.injEq, Prod.mk.injEq] at h
        exact Or.inr ⟨hpol, _, _, _, by rw [← h.2]⟩
      · split at h
        · exact absurd h (by simp)
        · exact absurd h (by simp)
  · split at h
    · rename_i hpol
      split at h
      · simp only [Except.ok.injEq, Prod.mk.injEq] at h
        exact Or.inl ⟨hpol, _, _, _, by rw [← h.2]⟩
      · split at h
        · simp only [Except.ok.injEq, Prod.mk.injEq] at h
          exact Or.inl ⟨hpol, _, _, _, by rw [← h.2]⟩
        · exact absurd h (by simp)
    · exact absurd h (by simp)

/-- Claim C2 — On a simulation whose permittivity was just (re)set (all six
`fields` entries unset, as the setter leaves them), every successful
`solve_fields` or `solve_fields_nl` call leaves exactly three of the six
entries populated, the three determined by the polarization (`Ex, Ey, Hz`
for `Hz`; `Hx, Hy, Ez` for `Ez`), with the other three still unset. -/
theorem claim_C2 (ext : Externals) (s : Simulation) (h0 : ∀ f, s.fields f = none) :
    (∀ (inl av : Bool) (r : Arr2 × Arr2 × Arr2) (s' : Simulation),
      Simulation.solve_fields ext s inl av = .ok (r, s') →
      ∀ f, ((s'.fields f).isSome = true ↔ f ∈ polFields s.pol)) ∧
    (∀ (Estart : Option Arr2) (tag : String) (ct : ℚ) (mi : ℕ) (av : Bool)
      (r : Arr2 × Arr2 × Arr2 × List ℚ) (s' : Simulation),
      Simulation.solve_fields_nl ext s Estart tag ct mi av = .ok (r, s') →
      ∀ f, ((s'.fields f).isSome = true ↔ f ∈ polFields s.pol)) := by
  constructor
  · intro inl av r s' hsf f
    rcases solve_fields_ok_form ext s inl av r s' hsf with
      ⟨hpol, a, b, c, hf⟩ | ⟨hpol, a, b, c, hf⟩ <;>
      rw [hf, hpol] <;> cases f <;> simp [setField, polFields, h0]
  · intro Estart tag ct mi av r s' hsf f
    rcases solve_fields_nl_ok_form ext s Estart tag ct mi av r s' hsf with
      ⟨hpol, a, b, c, hf⟩ | ⟨hpol, a, b, c, hf⟩ <;>
      rw [hf, hpol] <;> cases f <;> simp [setField, polFields, h0]

/-- The field triple returned by a concrete linear solve on `dummySim`. -/
def wTriple : Arr2 × Arr2 × Arr2 :=
  match Simulation.solve_fields wExt dummySim false true with
  | .ok (t, _) => t
  | .error _ => (zerosArr, zerosArr, zerosArr)

/-- The state left by a concrete linear solve on `dummySim`. -/
def wSolved : Simulation :=
  match Simulation.solve_fields wExt dummySim false true with
  | .ok (_, s') => s'
  | .error _ => dummySim

/-- Witness for `claim_C2` on explicit inputs: after a successful `Hz` solve,
`Ex` is populated and `Hx` is not. -/
theorem claim_C2_witness :
    ((wSolved.fields FieldName.Ex).isSome = true ↔ FieldName.Ex ∈ polFields dummySim.pol) ∧
    ((wSolved.fields FieldName.Hx).isSome = true ↔ FieldName.Hx ∈ polFields dummySim.pol) := by
  have h := (claim_C2 wExt dummySim (fun _ => rfl)).1 false true wTriple wSolved rfl
  exact ⟨h FieldName.Ex, h FieldName.Hx⟩

/-- Grid averaging commutes with scalar rescaling of the array. -/
theorem flatten_grid_average_scale (Ny : ℕ) (c : Cx) (a : Arr2) (w : String) (k : ℕ) :
    flatten Ny (grid_average (scaleArr c a) w) k =
      c * flatten Ny (grid_average a w) k := by
  unfold flatten grid_average scaleArr
  split <;> ring

/-- Scalar bookkeeping for the `Hz` companion-field recovery: the `1/1j/omega` prefactor of the source times the inverted grid-averaged-permittivity diagonal
equals division by `j * omega * eps0 * L0 * averaged-permittivity`. -/
theorem recover_pos (i w p q g d : Cx) :
    1 / i / w * ((p * q * g)⁻¹ * d) = d * (i * w * p * q * g)⁻¹ := by
  simp only [div_eq_mul_inv, mul_inv]
  ring

/-- Negated variant of `recover_pos` (the `-1/1j/omega` prefactor). -/
theorem recover_neg (i w p q g d : Cx) :
    -1 / i / w * ((p * q * g)⁻¹ * d) = -(d * (i * w * p * q * g)⁻¹) := by
  simp only [div_eq_mul_inv, mul_inv]
  ring

/-- Scalar bookkeeping for the `Ez` companion-field recovery, negative sign:
the `-1/1j/omega/MU_0_` prefactor of the source equals division by
`j * omega * mu0 * L0 * 1`. -/
theorem recover_mu_neg (i w p q d : Cx) :
    -1 / i / w / (p * q) * d = -(d * (i * w * p * q * 1)⁻¹) := by
  simp only [div_eq_mul_inv, mul_inv]
  ring

/-- Scalar bookkeeping for the `Ez` companion-field recovery, positive sign. -/
theorem recover_mu_pos (i w p q d : Cx) :
    1 / i / w / (p * q) * d = d * (i * w * p * q * 1)⁻¹ := by
  simp only [div_eq_mul_inv, mul_inv]
  ring

/-- Claim C1 — Every solve obtains the primary field as the direct solution
`X` of `A x = src * 1j * omega` delivered by the external direct solver (with
`A + Anl` and `eps_r + eps_nl` when `include_nl` is true), and recovers the
two companion components by applying the stored backward difference operators
`Dyb` and `Dxb` to `X`, scaled by `1/(j omega eps0 L0 grid-averaged
total permittivity)` under `Hz` polarization (positive sign on the `Dyb`
component, negative on the `Dxb` component) and by `1/(j omega mu0 L0
grid-averaged permeability)` under `Ez` polarization (negative sign on the
`Dyb` component, positive on the `Dxb` component; the permeability is the
all-ones `mu_r` installed by the constructor). -/
theorem claim_C1 (ext : Externals) (s : Simulation) (inl : Bool) (anl : Mat)
    (hAnl : inl = true → s.Anl = some anl)
    (hmu : ∀ i j, s.mu_r i j = 1)
    (X : Vec)
    (hX : X = ext.solver_direct (if inl = true then matAdd s.A anl else s.A)
      (fun k => flatten s.Ny s.src k * Cx.I * Cx.ofQ s.omega))
    (epsTot : Arr2)
    (hEps : epsTot = if inl = true then addArr s.eps_r s.eps_nl else s.eps_r) :
    (s.pol = "Hz" →
      okFields (Simulation.solve_fields ext s inl true) = some
        (unflatten s.Ny (fun k => (unpack_derivs s.derivs).1 X k *
            (Cx.I * Cx.ofQ s.omega * Cx.ofQ EPSILON_0 * Cx.ofQ s.L0 *
             flatten s.Ny (grid_average epsTot "y") k)⁻¹),
         unflatten s.Ny (fun k => -((unpack_derivs s.derivs).2.1 X k *
            (Cx.I * Cx.ofQ s.omega * Cx.ofQ EPSILON_0 * Cx.ofQ s.L0 *
             flatten s.Ny (grid_average epsTot "x") k)⁻¹)),
         unflatten s.Ny X)) ∧
    (s.pol = "Ez" →
      okFields (Simulation.solve_fields ext s inl true) = some
        (unflatten s.Ny (fun k => -((unpack_derivs s.derivs).1 X k *
            (Cx.I * Cx.ofQ s.omega * Cx.ofQ MU_0 * Cx.ofQ s.L0 *
             flatten s.Ny (grid_average s.mu_r "y") k)⁻¹)),
         unflatten s.Ny (fun k => (unpack_derivs s.derivs).2.1 X k *
            (Cx.I * Cx.ofQ s.omega * Cx.ofQ MU_0 * Cx.ofQ s.L0 *
             flatten s.Ny (grid_average s.mu_r "x") k)⁻¹),
         unflatten s.Ny X)) := by
  have hone : ∀ (w : String) (k : ℕ), flatten s.Ny (grid_average s.mu_r w) k = 1 := by
    intro w k
    unfold flatten grid_average
    split <;> simp only [hmu] <;> exact Cx.one_add_one_div_two
  subst hX hEps
  constructor <;> intro hpol <;> cases inl
  · -- Hz polarization, linear path
    simp only [Simulation.solve_fields, okFields, hpol, Bool.false_eq_true, if_false, if_true]
    refine congrArg some ?_
    simp only [Prod.mk.injEq]
    refine ⟨?_, ?_, trivial⟩
    · funext i j
      simp only [unflatten, scaleVec, spdiags]
      rw [flatten_grid_average_scale, Cx.ofQ_mul]
      exact recover_pos _ _ _ _ _ _
    · funext i j
      simp only [unflatten, scaleVec, spdiags]
      rw [flatten_grid_average_scale, Cx.ofQ_mul]
      exact recover_neg _ _ _ _ _ _
  · -- Hz polarization, nonlinear path
    have hAnl' := hAnl rfl
    simp only [Simulation.solve_fields, okFields, hpol, hAnl', Bool.true_eq_false,
      if_false, if_true]
    refine congrArg some ?_
    simp only [Prod.mk.injEq]
    refine ⟨?_, ?_, trivial⟩
    · funext i j
      simp only [unflatten, scaleVec, spdiags]
      rw [flatten_grid_average_scale, Cx.ofQ_mul]
      exact recover_pos _ _ _ _ _ _
    · funext i j
      simp only [unflatten, scaleVec, spdiags]
      rw [flatten_grid_average_scale, Cx.ofQ_mul]
      exact recover_neg _ _ _ _ _ _
  · -- Ez polarization, linear path
    simp only [Simulation.solve_fields, okFields, hpol, Bool.false_eq_true, if_false, if_true]
    refine congrArg some ?_
    simp only [Prod.mk.injEq]
    refine ⟨?_, ?_, trivial⟩
    · funext i j
      simp only [unflatten, scaleVec]
      rw [hone, Cx.ofQ_mul]
      exact recover_mu_neg _ _ _ _ _
    · funext i j
      simp only [unflatten, scaleVec]
      rw [hone, Cx.ofQ_mul]
      exact recover_mu_pos _ _ _ _ _
  · -- Ez polarization, nonlinear path
    have hAnl' := hAnl rfl
    simp only [Simulation.solve_fields, okFields, hpol, hAnl', Bool.true_eq_false,
      if_false, if_true]
    refine congrArg some ?_
    simp only [Prod.mk.injEq]
    refine ⟨?_, ?_, trivial⟩
    · funext i j
      simp only [unflatten, scaleVec]
      rw [hone, Cx.ofQ_mul]
      exact recover_mu_neg _ _ _ _ _
    · funext i j
      simp only [unflatten, scaleVec]
      rw [hone, Cx.ofQ_mul]
      exact recover_mu_pos _ _ _ _ _

/-- The linear direct solution for the concrete `dummySim` solve. -/
def wX : Vec :=
  wExt.solver_direct dummySim.A
    (fun k => flatten dummySim.Ny dummySim.src k * Cx.I * Cx.ofQ dummySim.omega)

/-- Witness for `claim_C1` on explicit inputs: the `Hz` linear solve of
`dummySim`. -/
theorem claim_C1_witness :
    okFields (Simulation.solve_fields wExt dummySim false true) = some
      (unflatten dummySim.Ny (fun k => (unpack_derivs dummySim.derivs).1 wX k *
          (Cx.I * Cx.ofQ dummySim.omega * Cx.ofQ EPSILON_0 * Cx.ofQ dummySim.L0 *
           flatten dummySim.Ny (grid_average dummySim.eps_r "y") k)⁻¹),
       unflatten dummySim.Ny (fun k => -((unpack_derivs dummySim.derivs).2.1 wX k *
          (Cx.I * Cx.ofQ dummySim.omega * Cx.ofQ EPSILON_0 * Cx.ofQ dummySim.L0 *
           flatten dummySim.Ny (grid_average dummySim.eps_r "x") k)⁻¹)),
       unflatten dummySim.Ny wX) :=
  (claim_C1 wExt dummySim false (fun v => v) (fun h => nomatch h) (fun _ _ => rfl)
    wX rfl dummySim.eps_r rfl).1 rfl

/-- Witness for `claim_C10` on explicit inputs: center `(3, 4)`, width `6`. -/
theorem claim_C10_witness :
    pyInt (5 / 2) = ⌊(5 / 2 : ℚ)⌋ ∧
    pyInt (-(5 / 2)) = -(pyInt (5 / 2)) ∧
    flux_inds "x" (3, 4) 6 = .ok ((3, 4), (1, 7)) := by
  refine ⟨claim_C10.1 (5 / 2) (by norm_num), claim_C10.2.1 (5 / 2), ?_⟩
  have h := (claim_C10.2.2 (3, 4) 6 3 (by norm_num)).1
  simpa using h

end Fdfdpy
